import Mathlib

/-!
# Verification of the fan-out / fan-in prime-number pipeline (main.go)

This file is a shallow embedding of the concurrent pipeline in
`src/main/main.go`.  Each Go stage is translated into an executable Lean
definition; the concurrency that matters for the claims is made explicit:

* Streams (unbuffered Go channels) are modelled as the finite list of items a
  stage actually sent before it returned, together with (where it matters) a
  flag telling whether the channel has been closed.  Receiving from a closed
  channel yields the element type's zero value immediately, as in Go; for the
  `interface` channels of this program that zero value is the nil interface.
* The one-shot cancellation (`done`) channel is modelled by run parameters:
  a stage's run is indexed by the point at which the `<-done` case of its
  `select` wins the race (`Option Nat`: `none` means cancellation never wins
  during the run, `some k` means it wins at the stage's `(k+1)`-th `select`).
* Go's `select` evaluation order is modelled faithfully: the Go specification
  says the right-hand side of a send case and the operands of receive cases
  are evaluated, in source order, upon *entry* to the select, before the
  select blocks.  Hence in `case valStream <- getValue():` (line 131) the
  getter runs once per select entry even if `<-done` then wins, and in
  `case result <- <-valueStream:` (line 66) the receive from `valueStream`
  happens outside the race against `done`.
* Panics (`close` of a closed channel, failed type assertion `item.(int64)`,
  `rand.Int63n` with a non-positive bound) are modelled with `Except GoPanic`.
* The `sync.WaitGroup` protocol of `reduceWorkers` is modelled as a small
  transition system (`RWState`/`RWStep`) whose reachable states are analysed.
-/

/-- A dynamic value travelling on an `interface` channel of the program:
either an `int64` payload, the nil interface (the zero value a receive on a
closed `chan interface` yields), or a value of some other dynamic type. -/
inductive GoValue
  | int64 (n : Int)
  | nil
  | other
deriving DecidableEq

/-- The runtime panics the program can raise: the failed type assertion
`item.(int64)` in `valuesToIntStream` (line 147), the `rand.Int63n` panic on a
non-positive bound (`math/rand` documentation: Int63n panics if n <= 0), and
Go's panic on closing an already-closed channel. -/
inductive GoPanic
  | typeAssertionFailed
  | int63nNonPositive
  | closeOfClosedChannel
deriving DecidableEq

/-- Whether a dynamic value has dynamic type `int64`, i.e. whether the type
assertion `item.(int64)` at line 147 succeeds on it. -/
def isInt64 : GoValue → Bool
  | GoValue.int64 _ => true
  | _ => false

/-- Model of `big.NewInt(num).ProbablyPrime(0)` (line 110).  With argument 0,
`ProbablyPrime` applies the deterministic Baillie-PSW test, which `math/big`
documents to be exact for all inputs below 2^64, hence for every `int64`
produced by this program; on zero and negative arguments it returns false.
So the predicate is: `num` exceeds 1 and is prime.  `Nat.minFac` is used so
that the predicate evaluates by kernel reduction; `probablyPrime_iff` below
relates it to Mathlib's `Nat.Prime`. -/
def probablyPrime (n : Int) : Bool :=
  decide (1 < n) && (Nat.minFac n.toNat == n.toNat)

/-- Model of `rand.Int63n(n)` from `math/rand`, the only library call of
`randVal` (line 157).  Its documented contract: it panics when `n <= 0`, and
otherwise returns a value in `[0, n)`.  The pseudo-randomness is external
entropy, so it is abstracted as an oracle value `x` reduced into the interval
by `%` (only the panic condition and the interval matter to the claims). -/
def randInt63n (n x : Int) : Except GoPanic Int :=
  if n ≤ 0 then Except.error GoPanic.int63nNonPositive
  else Except.ok (x % n)

/-- Model of `randVal` (lines 155-159): given the flag value `num` it returns
the injected value source, a function producing one `interface` value per
call by calling `rand.Int63n(num)`.  The oracle stream `rng` supplies the
entropy of the `i`-th call. -/
def randVal (num : Int) (rng : Nat → Int) : Nat → Except GoPanic GoValue :=
  fun i =>
    match randInt63n num (rng i) with
    | Except.ok v => Except.ok (GoValue.int64 v)
    | Except.error e => Except.error e

/-- Model of the generator goroutine of `createValueStream` (lines 125-134)
for an infallible source.  The loop body is one `select`; per the Go
specification `getValue()` is evaluated once upon entering the select, before
the race between `<-done` and the send is decided.  `source` gives the value
of the `j`-th call of the getter, `i` is the index of the call made on entry
to the current iteration, and `k` says how many more times the send case wins
before `<-done` wins.  Result: (values sent on `valStream`, number of calls
of the getter performed).  The run ends with the goroutine returning, so
`valStream` is closed (deferred close, line 126) after the listed sends. -/
def createValueStream (source : Nat → GoValue) (i : Nat) : Nat → List GoValue × Nat
  | 0 => ([], 1)
  | k + 1 =>
    let p := createValueStream source (i + 1) k
    (source i :: p.1, p.2 + 1)

/-- Model of the generator goroutine of `createValueStream` (lines 125-134)
for a fallible source, used with `randVal`: a panic of the getter (evaluated
on entry to the select, line 131) aborts the run before anything is sent in
that iteration and kills the program. -/
def createValueStreamE (source : Nat → Except GoPanic GoValue) (i : Nat) :
    Nat → Except GoPanic (List GoValue × Nat)
  | 0 =>
    match source i with
    | Except.error e => Except.error e
    | Except.ok _ => Except.ok ([], 1)
  | k + 1 =>
    match source i with
    | Except.error e => Except.error e
    | Except.ok v =>
      match createValueStreamE source (i + 1) k with
      | Except.error e => Except.error e
      | Except.ok (out, c) => Except.ok (v :: out, c + 1)

/-- Model of the projection goroutine of `valuesToIntStream` (lines 141-150):
it ranges over the raw stream and sends `item.(int64)` for each item; a raw
item of any other dynamic type makes the type assertion panic, which kills
the whole program (`Except.error`).  Cancellation is not represented here: it
can only truncate the traversal (the `select` at lines 144-148), never skip
an item and continue.  Result: the `int64` payloads, in stream order. -/
def valuesToIntStream : List GoValue → Except GoPanic (List Int)
  | [] => Except.ok []
  | GoValue.int64 n :: xs =>
    match valuesToIntStream xs with
    | Except.ok l => Except.ok (n :: l)
    | Except.error e => Except.error e
  | _ :: _ => Except.error GoPanic.typeAssertionFailed

/-- Model of one worker goroutine of `primeNumberWorker` (lines 106-118).
The worker ranges over the shared typed stream; `input` is the subsequence of
items delivered to this worker, in delivery order.  For each item it
evaluates the predicate; on success it enters the `select` racing the send on
its output stream against `<-done`.  `cancel = none`: `<-done` never wins
during this run (the stream closed first); `cancel = some k`: `<-done` wins
at the worker's `(k+1)`-th select, i.e. after `k` successful sends, and the
worker returns, dropping the item it had read.  Result: (items the worker
read, items it sent on its output stream).  The output channel is closed when
the goroutine returns (deferred close, line 107). -/
def primeNumberWorker : List Int → Option Nat → List Int × List Int
  | [], _ => ([], [])
  | x :: xs, c =>
    if probablyPrime x then
      match c with
      | some 0 => ([x], [])
      | some (k + 1) =>
        let p := primeNumberWorker xs (some k)
        (x :: p.1, x :: p.2)
      | none =>
        let p := primeNumberWorker xs none
        (x :: p.1, x :: p.2)
    else
      let p := primeNumberWorker xs c
      (x :: p.1, p.2)

/-- Model of one forwarding goroutine `reduceChan` of `reduceWorkers`
(lines 79-88): it ranges over one worker's output stream and relays each item
into the merged stream inside a `select` against `<-done`.  `cancel = some k`
means `<-done` wins at the `(k+1)`-th select: the item just received is
dropped and the forwarder returns.  Result: the items this forwarder sent on
the merged stream, in order. -/
def reduceChan : List GoValue → Option Nat → List GoValue
  | [], _ => []
  | _ :: _, some 0 => []
  | x :: xs, some (k + 1) => x :: reduceChan xs (some k)
  | x :: xs, none => x :: reduceChan xs none

/-- State of the `reduceWorkers` completion protocol (lines 74-101):
`running` is the number of forwarding goroutines that have not yet executed
their deferred `wg.Done()` (the wait-group counter, initialised to `N` by
`wg.Add(len(channels))` at line 91); `closerDone` records whether the closer
goroutine (lines 95-98) has passed `wg.Wait()` and executed
`close(reducedStream)`; `closed` is the merged stream's status; `sends`
counts completed sends on the merged stream; `closes` counts executions of
`close(reducedStream)`. -/
structure RWState where
  running : Nat
  closerDone : Bool
  closed : Bool
  sends : Nat
  closes : Nat
deriving DecidableEq

/-- Initial state of `reduceWorkers` with `n` worker channels: `n` running
forwarders, merged stream open, nothing sent, nothing closed. -/
def RWState.init (n : Nat) : RWState :=
  ⟨n, false, false, 0, 0⟩

/-- One scheduler step of the `reduceWorkers` protocol:
a running forwarder completes a send on the merged stream (line 85); a
running forwarder returns and its deferred `wg.Done()` runs (line 80),
decrementing the counter; or the closer goroutine, unblocked from `wg.Wait()`
because the counter is zero, closes the merged stream (lines 96-97) — the
closer is a single goroutine, so it runs at most once (`closerDone`). -/
inductive RWStep : RWState → RWState → Prop
  | send (s : RWState) (h : 0 < s.running) :
      RWStep s { s with sends := s.sends + 1 }
  | finish (s : RWState) (h : 0 < s.running) :
      RWStep s { s with running := s.running - 1 }
  | close (s : RWState) (h : s.running = 0) (h2 : s.closerDone = false) :
      RWStep s { s with closerDone := true, closed := true, closes := s.closes + 1 }

/-- States of the protocol reachable from the initial state with `n` worker
channels. -/
inductive RWReach (n : Nat) : RWState → Prop
  | init : RWReach n (RWState.init n)
  | step {s t : RWState} : RWReach n s → RWStep s t → RWReach n t

/-- Finite step sequences of the `reduceWorkers` protocol. -/
inductive RWSteps : RWState → RWState → Prop
  | refl (s : RWState) : RWSteps s s
  | tail {s t u : RWState} : RWSteps s t → RWStep t u → RWSteps s u

/-- Model of the consumer goroutine of `createResultStream` (lines 60-69) on
a merged stream whose sent contents are `input` and whose closed flag (after
those contents) is as given.  Each of the `num` loop iterations performs
`result <- <-valueStream`: per the Go specification the receive
`<-valueStream` is evaluated upon entry to the select, outside the race
against `<-done` — a receive on the exhausted-and-closed merged stream yields
the nil interface immediately, while a receive on an exhausted-but-open
stream blocks forever (`none`).  `<-done` never wins here: in `main` the
`done` channel is closed only after this goroutine has returned (deferred
close at line 32, after the driver drained `result`).  Result:
(items sent on `result`, number of receives performed on the merged stream);
`result` is closed when the goroutine returns (deferred close, line 61). -/
def createResultStream : List GoValue → Bool → Nat → Option (List GoValue × Nat)
  | _, _, 0 => some ([], 0)
  | [], false, _ + 1 => none
  | [], true, k + 1 =>
    match createResultStream [] true k with
    | some (out, r) => some (GoValue.nil :: out, r + 1)
    | none => none
  | v :: vs, c, k + 1 =>
    match createResultStream vs c k with
    | some (out, r) => some (v :: out, r + 1)
    | none => none

/-- The stages whose goroutines perform blocking channel operations:
generator (`createValueStream`), projection (`valuesToIntStream`), worker
(`primeNumberWorker`), merger forwarder (`reduceChan`), bounded consumer
(`createResultStream`). -/
inductive PipeStage
  | generator
  | projection
  | worker
  | forwarder
  | consumer
deriving DecidableEq

/-- A channel operation is a send or a receive. -/
inductive OpKind
  | send
  | recv
deriving DecidableEq

/-- One blocking channel operation of a stage: the stage, whether it is a
send or a receive, the line of `src/main/main.go` it occurs on, and whether
the operation is performed *inside* a `select` together with a `<-done`
case — i.e. whether the block on this operation races the cancellation
signal. -/
structure ChanOp where
  stage : PipeStage
  kind : OpKind
  line : Nat
  inSelectWithDone : Bool
deriving DecidableEq

/-- The blocking channel operations of the five pipeline stages, read off
`src/main/main.go` with the Go evaluation rules for `select`:

* generator: `case valStream <- getValue():` line 131 — send in select ✓;
* projection: `for item := range vals` line 143 — a plain blocking receive,
  no select; `case intStream <- item.(int64):` line 147 — send in select ✓;
* worker: `for num := range intStream` line 108 — plain receive;
  `case primeNumStream <- num:` line 114 — send in select ✓;
* forwarder: `for item := range workerChannel` line 81 — plain receive;
  `case reducedStream <- item:` line 85 — send in select ✓;
* consumer: in `case result <- <-valueStream:` line 66 the Go specification
  makes the right-hand side `<-valueStream` evaluate upon entry to the
  select, so the receive from the merged stream blocks *outside* the race
  against `<-done`; only the send on `result` is inside the select ✓. -/
def pipelineChanOps : List ChanOp :=
  [⟨PipeStage.generator, OpKind.send, 131, true⟩,
   ⟨PipeStage.projection, OpKind.recv, 143, false⟩,
   ⟨PipeStage.projection, OpKind.send, 147, true⟩,
   ⟨PipeStage.worker, OpKind.recv, 108, false⟩,
   ⟨PipeStage.worker, OpKind.send, 114, true⟩,
   ⟨PipeStage.forwarder, OpKind.recv, 81, false⟩,
   ⟨PipeStage.forwarder, OpKind.send, 85, true⟩,
   ⟨PipeStage.consumer, OpKind.recv, 66, false⟩,
   ⟨PipeStage.consumer, OpKind.send, 66, true⟩]

/-- Status of the one-shot `done` channel. -/
inductive ChanState
  | opened
  | closed
deriving DecidableEq

/-- Go's `close` on a channel: closing an open channel closes it; closing an
already-closed channel panics. -/
def closeChan : ChanState → Except GoPanic ChanState
  | ChanState.opened => Except.ok ChanState.closed
  | ChanState.closed => Except.error GoPanic.closeOfClosedChannel

/-- Performing `k` successive `close(done)` operations, counting the ones
that completed without panicking. -/
def runCloses : Nat → ChanState → Except GoPanic (ChanState × Nat)
  | 0, st => Except.ok (st, 0)
  | k + 1, st =>
    match closeChan st with
    | Except.error e => Except.error e
    | Except.ok st2 =>
      match runCloses k st2 with
      | Except.error e => Except.error e
      | Except.ok (st3, c) => Except.ok (st3, c + 1)

/-- The number of times `main` executes `close(done)`: the single statement
`defer close(done)` at line 32 runs exactly once, when `main` returns — by
construction there is no other close site and no repeated trigger. -/
def mainDoneCloses : Nat := 1

/-- `const` block of main.go, lines 12-16: the defaults of the `p`, `r` and
`n` flags (lines 24-26). -/
def DEFAULT_NUM_PRIMES : Nat := 10

/-- Default of the `r` flag (line 14). -/
def DEFAULT_NUM_RANGE : Int := 100000

/-- Default of the `n` flag (line 15). -/
def DEFAULT_NUM_WORKERS : Nat := 8

/-- Scenario A pipeline (`K = 5`, `range = 100`, `N = 1`): the composition of
the stages of `main` (lines 36-47) with one worker.  `rng` is the entropy
oracle of the random source and `g` the number of values the generator sends
before cancellation stops it.  With a single worker the shared typed stream
is delivered entirely to that worker; its single forwarder relays its output
in order into the merged stream (no cancellation interferes before the
consumer is done, since `done` closes only after `main`'s receive loop ends);
the consumer takes `K = 5` items.  Result: `none` if the run blocks or a
stage panics, otherwise the consumer's output and receive count. -/
def scenarioA (rng : Nat → Int) (g : Nat) : Option (List GoValue × Nat) :=
  match createValueStreamE (randVal 100 rng) 0 g with
  | Except.error _ => none
  | Except.ok (raw, _) =>
    match valuesToIntStream raw with
    | Except.error _ => none
    | Except.ok ints =>
      createResultStream
        (reduceChan (((primeNumberWorker ints none).2).map GoValue.int64) none)
        false 5

/-- Entropy oracle under which the random source emits 2, 2, 3, 5, 7: a
legal behaviour of `rand.Int63n(100)`, which samples with replacement. -/
def rngDup : Nat → Int :=
  fun i => List.getD [2, 2, 3, 5, 7] i 0

/-- Entropy oracle under which the random source emits 2, 3, 5, 7, 11. -/
def rngW : Nat → Int :=
  fun i => List.getD [2, 3, 5, 7, 11] i 0

/-- Equality of panic-or-value results is decidable (used to evaluate the
model on concrete runs). -/
instance {α : Type} [DecidableEq α] : DecidableEq (Except GoPanic α) := by
  intro a b
  cases a with
  | ok x =>
    cases b with
    | ok y => exact decidable_of_iff (x = y) (by simp)
    | error f => exact isFalse (by simp)
  | error e =>
    cases b with
    | ok y => exact isFalse (by simp)
    | error f => exact decidable_of_iff (e = f) (by simp)

/-! ## Helper lemmas -/

/-- The Baillie-PSW model of `ProbablyPrime(0)` agrees with Mathlib's
primality predicate: it accepts `n` exactly when `n > 1` and `n` is prime. -/
theorem probablyPrime_iff (n : Int) :
    probablyPrime n = true ↔ 1 < n ∧ Nat.Prime n.toNat := by
  unfold probablyPrime
  rw [Bool.and_eq_true, decide_eq_true_iff, beq_iff_eq]
  constructor
  · rintro ⟨h1, h2⟩
    refine ⟨h1, Nat.prime_def_minFac.mpr ⟨?_, h2⟩⟩
    omega
  · rintro ⟨h1, h2⟩
    exact ⟨h1, (Nat.prime_def_minFac.mp h2).2⟩

/-- An uncancelled worker run reads its whole delivered subsequence and
outputs exactly the items passing the predicate, in order. -/
theorem primeNumberWorker_none (l : List Int) :
    primeNumberWorker l none = (l, l.filter probablyPrime) := by
  induction l with
  | nil => rfl
  | cons x xs ih =>
    by_cases h : probablyPrime x = true
    · simp [primeNumberWorker, h, ih, List.filter_cons]
    · simp [primeNumberWorker, h, ih, List.filter_cons]

/-- In every worker run, cancelled or not, the output stream is an initial
segment of the predicate-filtered sequence of the items the worker read. -/
theorem primeNumberWorker_take (l : List Int) (c : Option Nat) :
    ∃ k, (primeNumberWorker l c).2 =
      (((primeNumberWorker l c).1).filter probablyPrime).take k := by
  induction l generalizing c with
  | nil => exact ⟨0, rfl⟩
  | cons x xs ih =>
    by_cases h : probablyPrime x = true
    · match c with
      | some 0 =>
        refine ⟨0, ?_⟩
        simp [primeNumberWorker, h]
      | some (k + 1) =>
        obtain ⟨m, hm⟩ := ih (some k)
        refine ⟨m + 1, ?_⟩
        simp [primeNumberWorker, h, List.filter_cons, hm]
      | none =>
        obtain ⟨m, hm⟩ := ih none
        refine ⟨m + 1, ?_⟩
        simp [primeNumberWorker, h, List.filter_cons, hm]
    · obtain ⟨m, hm⟩ := ih c
      refine ⟨m, ?_⟩
      simp [primeNumberWorker, h, List.filter_cons, hm]

/-- A generator run with `k` send wins produces the first `k` getter values
in call order and performs `k + 1` getter calls (the last call's value is
discarded when `<-done` wins the final select). -/
theorem createValueStream_spec (source : Nat → GoValue) (i k : Nat) :
    (createValueStream source i k).1 = (List.range k).map (fun j => source (i + j)) ∧
    (createValueStream source i k).2 = k + 1 := by
  induction k generalizing i with
  | zero => simp [createValueStream]
  | succ k ih =>
    obtain ⟨h1, h2⟩ := ih (i + 1)
    refine ⟨?_, by simp [createValueStream, h2]⟩
    have hfun : (fun j => source (i + 1 + j)) = fun j => source (i + Nat.succ j) := by
      funext j
      congr 1
      omega
    simp only [createValueStream, h1, List.range_succ_eq_map, List.map_cons,
      List.map_map, Function.comp_def]
    rw [show i + 0 = i by omega]
    rw [hfun]

/-- An uncancelled forwarder relays its worker's whole output stream, in
order, into the merged stream. -/
theorem reduceChan_none (l : List GoValue) : reduceChan l none = l := by
  induction l with
  | nil => rfl
  | cons x xs ih => simp [reduceChan, ih]

/-- When the merged stream holds at least `K` items, the consumer forwards
exactly the first `K` of them and performs exactly `K` receives, whether or
not the stream is closed behind them. -/
theorem createResultStream_of_le (l : List GoValue) (c : Bool) (K : Nat)
    (h : K ≤ l.length) :
    createResultStream l c K = some (l.take K, K) := by
  induction K generalizing l with
  | zero => simp [createResultStream]
  | succ K ih =>
    match l with
    | [] => simp at h
    | v :: vs =>
      have h2 : K ≤ vs.length := by simpa using h
      simp [createResultStream, ih vs h2]

/-- On a closed merged stream the consumer never blocks: its run is total. -/
theorem createResultStream_closed_isSome (K : Nat) (l : List GoValue) :
    (createResultStream l true K).isSome = true := by
  induction K generalizing l with
  | zero => simp [createResultStream]
  | succ K ih =>
    match l with
    | [] =>
      cases hrec : createResultStream [] true K with
      | none =>
        have := ih []
        rw [hrec] at this
        simp at this
      | some p =>
        obtain ⟨o, r⟩ := p
        simp [createResultStream, hrec]
    | v :: vs =>
      cases hrec : createResultStream vs true K with
      | none =>
        have := ih vs
        rw [hrec] at this
        simp at this
      | some p =>
        obtain ⟨o, r⟩ := p
        simp [createResultStream, hrec]

/-- On an exhausted, closed merged stream every receive of the consumer
completes immediately with the nil interface: `K` iterations forward `K` nil
values downstream. -/
theorem createResultStream_closed_nil (K : Nat) :
    createResultStream [] true K = some (List.replicate K GoValue.nil, K) := by
  induction K with
  | zero => simp [createResultStream]
  | succ K ih => simp [createResultStream, ih, List.replicate_succ]

/-- Inversion for a completed consumer run on a not-yet-closed merged stream:
it must have had `K` items available, forwarded exactly the first `K`, and
performed exactly `K` receives. -/
theorem createResultStream_false_some (l : List GoValue) (K : Nat)
    (p : List GoValue × Nat) (h : createResultStream l false K = some p) :
    K ≤ l.length ∧ p = (l.take K, K) := by
  induction K generalizing l p with
  | zero =>
    simp only [createResultStream, Option.some.injEq] at h
    refine ⟨Nat.zero_le _, ?_⟩
    rw [← h]
    simp
  | succ K ih =>
    match l with
    | [] => simp [createResultStream] at h
    | v :: vs =>
      cases hrec : createResultStream vs false K with
      | none => simp [createResultStream, hrec] at h
      | some q =>
        obtain ⟨o, r⟩ := q
        obtain ⟨h1, h2⟩ := ih vs (o, r) hrec
        simp only [createResultStream, hrec, Option.some.injEq] at h
        have ho : o = vs.take K := congrArg Prod.fst h2
        have hr : r = K := congrArg Prod.snd h2
        refine ⟨by simpa using Nat.succ_le_succ h1, ?_⟩
        rw [← h, ho, hr]
        simp

/-- Inversion of a successful projection run: success means every raw item
had dynamic type `int64` and the typed stream carries exactly their payloads,
unchanged and in order. -/
theorem valuesToIntStream_ok (vals : List GoValue) (out : List Int)
    (h : valuesToIntStream vals = Except.ok out) :
    vals = out.map GoValue.int64 := by
  induction vals generalizing out with
  | nil =>
    simp only [valuesToIntStream, Except.ok.injEq] at h
    simp [← h]
  | cons v vs ih =>
    match v with
    | GoValue.int64 n =>
      cases hrec : valuesToIntStream vs with
      | error e => simp [valuesToIntStream, hrec] at h
      | ok l =>
        simp only [valuesToIntStream, hrec, Except.ok.injEq] at h
        rw [← h]
        simp [ih l hrec]
    | GoValue.nil => simp [valuesToIntStream] at h
    | GoValue.other => simp [valuesToIntStream] at h

/-- A raw stream containing any item that is not an `int64` makes the
projection stage panic with the type-assertion failure (never a skip). -/
theorem valuesToIntStream_error (vals : List GoValue)
    (h : ∃ v ∈ vals, isInt64 v = false) :
    valuesToIntStream vals = Except.error GoPanic.typeAssertionFailed := by
  induction vals with
  | nil => simp at h
  | cons v vs ih =>
    match v with
    | GoValue.int64 n =>
      have h2 : ∃ w ∈ vs, isInt64 w = false := by
        obtain ⟨w, hw, hbad⟩ := h
        cases hw with
        | head => simp [isInt64] at hbad
        | tail _ hw2 => exact ⟨w, hw2, hbad⟩
      simp [valuesToIntStream, ih h2]
    | GoValue.nil => rfl
    | GoValue.other => rfl

/-- With a positive bound `r`, a generator run driven by `randVal r` never
panics: it sends `k` values, every one an `int64` in `[0, r)`, and performs
`k + 1` getter calls. -/
theorem createValueStreamE_randVal (r : Int) (hr : 0 < r) (rng : Nat → Int)
    (i k : Nat) :
    ∃ raw : List GoValue,
      createValueStreamE (randVal r rng) i k = Except.ok (raw, k + 1) ∧
      ∀ v ∈ raw, ∃ n : Int, v = GoValue.int64 n ∧ 0 ≤ n ∧ n < r := by
  induction k generalizing i with
  | zero =>
    refine ⟨[], ?_, by simp⟩
    simp [createValueStreamE, randVal, randInt63n, if_neg (not_le.mpr hr)]
  | succ k ih =>
    obtain ⟨raw, hok, hb⟩ := ih (i + 1)
    refine ⟨GoValue.int64 (rng i % r) :: raw, ?_, ?_⟩
    · simp [createValueStreamE, randVal, randInt63n, if_neg (not_le.mpr hr), hok]
    · intro v hv
      cases hv with
      | head =>
        exact ⟨rng i % r, rfl, Int.emod_nonneg _ (ne_of_gt hr),
          Int.emod_lt_of_pos _ hr⟩
      | tail _ hv2 => exact hb v hv2

/-- Inductive invariant of the `reduceWorkers` completion protocol: the
wait-group counter never exceeds the initial `n`; the merged stream is closed
only when the counter is zero; before the closer has run nothing has been
closed; once it has run, exactly one close has happened, the stream is
closed, and the counter is zero. -/
theorem rwReach_invariant {n : Nat} {s : RWState} (h : RWReach n s) :
    s.running ≤ n ∧
    (s.closed = true → s.running = 0) ∧
    (s.closerDone = false → s.closes = 0 ∧ s.closed = false) ∧
    (s.closerDone = true → s.closes = 1 ∧ s.closed = true ∧ s.running = 0) := by
  induction h with
  | init => simp [RWState.init]
  | step _ hstep ih =>
    cases hstep with
    | send h1 =>
      exact ⟨ih.1, ih.2.1, ih.2.2.1, ih.2.2.2⟩
    | finish h1 =>
      obtain ⟨i1, i2, i3, i4⟩ := ih
      refine ⟨?_, ?_, ?_, ?_⟩
      · exact le_trans (Nat.sub_le _ _) i1
      · intro hc
        have := i2 hc
        omega
      · exact i3
      · intro hd
        obtain ⟨j1, j2, j3⟩ := i4 hd
        exact ⟨j1, j2, by omega⟩
    | close h1 h2 =>
      obtain ⟨i1, i2, i3, i4⟩ := ih
      obtain ⟨j1, j2⟩ := i3 h2
      refine ⟨i1, fun _ => h1, fun hx => by simp at hx,
        fun _ => ⟨by simp [j1], rfl, h1⟩⟩

/-- Prepending one step to a step sequence. -/
theorem rwSteps_head {s t u : RWState} (h : RWStep s t) (h2 : RWSteps t u) :
    RWSteps s u := by
  induction h2 with
  | refl => exact RWSteps.tail (RWSteps.refl s) h
  | tail _ hstep ih => exact RWSteps.tail ih hstep

/-- From any state whose closer has not yet run, the protocol can let every
remaining forwarder finish and then let the closer close the merged stream:
the close happens, exactly once more than before. -/
theorem rw_eventually_close (m : Nat) :
    ∀ s : RWState, s.running = m → s.closerDone = false →
      ∃ t, RWSteps s t ∧ t.closerDone = true ∧ t.closed = true ∧
        t.closes = s.closes + 1 ∧ t.running = 0 := by
  induction m with
  | zero =>
    intro s hm hcd
    refine ⟨{ s with closerDone := true, closed := true, closes := s.closes + 1 },
      ?_, rfl, rfl, rfl, hm⟩
    exact RWSteps.tail (RWSteps.refl s) (RWStep.close s hm hcd)
  | succ m ih =>
    intro s hm hcd
    have hstep : RWStep s { s with running := s.running - 1 } :=
      RWStep.finish s (by omega)
    obtain ⟨t, hsteps, h1, h2, h3, h4⟩ :=
      ih { s with running := s.running - 1 } (by show s.running - 1 = m; omega) hcd
    exact ⟨t, rwSteps_head hstep hsteps, h1, h2, h3, h4⟩

/-- From every reachable state of the protocol, a state is reachable in which
the merged stream has been closed — and closed exactly once. -/
theorem rw_closes_eventually {n : Nat} {s : RWState} (h : RWReach n s) :
    ∃ t, RWSteps s t ∧ t.closed = true ∧ t.closes = 1 ∧ t.running = 0 := by
  cases hcd : s.closerDone with
  | true =>
    obtain ⟨h1, h2, h3⟩ := (rwReach_invariant h).2.2.2 hcd
    exact ⟨s, RWSteps.refl s, h2, h1, h3⟩
  | false =>
    obtain ⟨hc0, _⟩ := (rwReach_invariant h).2.2.1 hcd
    obtain ⟨t, hst, _, h2, h3, h4⟩ := rw_eventually_close s.running s rfl hcd
    exact ⟨t, hst, h2, by omega, h4⟩

/-- No send is completed on the merged stream once it is closed: any step
that changes the send count starts (and ends) with the stream open. -/
theorem rw_no_send_after_close {n : Nat} {s t : RWState} (h : RWReach n s)
    (hstep : RWStep s t) (hsend : t.sends ≠ s.sends) :
    s.closed = false ∧ t.closed = false := by
  cases hstep with
  | send h1 =>
    cases hc : s.closed with
    | false => exact ⟨rfl, rfl⟩
    | true =>
      have := (rwReach_invariant h).2.1 hc
      omega
  | finish h1 => exact absurd rfl hsend
  | close h1 h2 => exact absurd rfl hsend

/-- With zero worker channels the protocol never sends anything and its
counter is already satisfied in every reachable state. -/
theorem rw_zero_no_sends {s : RWState} (h : RWReach 0 s) :
    s.sends = 0 ∧ s.running = 0 := by
  induction h with
  | init => exact ⟨rfl, rfl⟩
  | step hr hstep ih =>
    cases hstep with
    | send h1 =>
      have := (rwReach_invariant hr).1
      omega
    | finish h1 =>
      have := (rwReach_invariant hr).1
      omega
    | close h1 h2 => exact ⟨ih.1, h1⟩

/-! ## Claims -/

/-- C1: For every target count `K ≥ 0`, when the merged stream supplies at
least `K` items, the Bounded Consumer (`createResultStream`, lines 58-71)
emits exactly `K` items — the first `K` received — on its output stream and
then closes it (deferred close, line 61); for `K = 0` the loop body never
runs, so it closes the output immediately after zero receives. -/
theorem c1_consumer_exact_count (input : List GoValue) (K : Nat)
    (h : K ≤ input.length) :
    createResultStream input false K = some (input.take K, K) ∧
    (input.take K).length = K ∧
    createResultStream input false 0 = some ([], 0) := by
  refine ⟨createResultStream_of_le input false K h, ?_, ?_⟩
  · simp [List.length_take, Nat.min_eq_left h]
  · simpa using createResultStream_of_le input false 0 (Nat.zero_le _)

/-- Witness for C1: the consumer with `K = 2` on a merged stream holding two
items emits exactly those two items and performs two receives. -/
theorem c1_consumer_exact_count_witness :
    createResultStream [GoValue.int64 2, GoValue.int64 3] false 2 =
      some ([GoValue.int64 2, GoValue.int64 3], 2) := by
  have h := (c1_consumer_exact_count [GoValue.int64 2, GoValue.int64 3] 2
    (by decide)).1
  simpa using h

/-- C2 counterexample: in the worker run that read the shared-stream items
[2, 3] and was preempted by cancellation at the send of 3 (`<-done` wins the
worker's second select — the schedule the program realises whenever the
consumer stops while this worker still holds an accepted item), the worker
read 3 and the predicate holds for 3, yet 3 is not on its output stream, so
the output is not the predicate-filter of the items read. -/
theorem c2_worker_filter_counterexample :
    (primeNumberWorker [2, 3] (some 1)).1 = [2, 3] ∧
    (primeNumberWorker [2, 3] (some 1)).2 = [2] ∧
    probablyPrime 3 = true ∧
    ¬ (3 : Int) ∈ (primeNumberWorker [2, 3] (some 1)).2 ∧
    (primeNumberWorker [2, 3] (some 1)).2 ≠
      ((primeNumberWorker [2, 3] (some 1)).1).filter probablyPrime := by
  decide

/-- C2 (amended): in a worker run that cancellation does not preempt, the
output stream equals the ordered subsequence of the items read consisting of
exactly the items satisfying the predicate — a read item is output iff the
predicate holds for it, in read order.  In a run preempted at a send, the
output is an initial segment of that filtered sequence: the accepted item in
flight at cancellation is lost, nothing is reordered or added. -/
theorem c2_worker_filter (input : List Int) :
    (primeNumberWorker input none).1 = input ∧
    (primeNumberWorker input none).2 = input.filter probablyPrime ∧
    (∀ x : Int, x ∈ (primeNumberWorker input none).2 ↔
      x ∈ input ∧ probablyPrime x = true) ∧
    ∀ c : Option Nat, ∃ k,
      (primeNumberWorker input c).2 =
        (((primeNumberWorker input c).1).filter probablyPrime).take k := by
  have h := primeNumberWorker_none input
  refine ⟨congrArg Prod.fst h, congrArg Prod.snd h, ?_,
    primeNumberWorker_take input⟩
  intro x
  rw [congrArg Prod.snd h]
  simp [List.mem_filter]

/-- C3: in every reachable state of the `reduceWorkers` completion protocol
(lines 74-101), the merged stream has been closed at most once; it is closed
only when the wait-group counter of the forwarding goroutines has reached
zero; any step completing a send on the merged stream starts and ends with
the stream unclosed; and from every reachable state the run extends to one
where the merged stream is closed — exactly once. -/
theorem c3_merged_close_once (n : Nat) (s : RWState) (h : RWReach n s) :
    s.closes ≤ 1 ∧
    (s.closed = true → s.running = 0) ∧
    (∀ t, RWStep s t → t.sends ≠ s.sends →
      s.closed = false ∧ t.closed = false) ∧
    ∃ t, RWSteps s t ∧ t.closed = true ∧ t.closes = 1 ∧ t.running = 0 := by
  obtain ⟨i1, i2, i3, i4⟩ := rwReach_invariant h
  refine ⟨?_, i2, fun t hst hsend => rw_no_send_after_close h hst hsend,
    rw_closes_eventually h⟩
  cases hcd : s.closerDone with
  | false =>
    have := (i3 hcd).1
    omega
  | true =>
    have := (i4 hcd).1
    omega

/-- Witness for C3 at the initial state of a run with two worker channels. -/
theorem c3_merged_close_once_witness :
    (RWState.init 2).closes ≤ 1 ∧
    ∃ t, RWSteps (RWState.init 2) t ∧ t.closed = true ∧ t.closes = 1 ∧
      t.running = 0 := by
  have h := c3_merged_close_once 2 (RWState.init 2) RWReach.init
  exact ⟨h.1, h.2.2.2⟩

/-- C4 counterexample: it is not the case that every blocking send or
receive of the pipeline stages is paired in a single atomic select with a
wait on the cancellation signal.  The witness operation is the consumer's
receive from the merged stream at line 66: in
`case result <- <-valueStream:` the Go specification evaluates the
right-hand side `<-valueStream` upon entry to the select, so that receive
blocks outside the race against `<-done`; the `range` receives of the
projection (line 143), worker (line 108) and forwarder (line 81) loops are
likewise plain receives with no `<-done` alternative. -/
theorem c4_select_pairing_counterexample :
    (⟨PipeStage.consumer, OpKind.recv, 66, false⟩ : ChanOp) ∈ pipelineChanOps ∧
    pipelineChanOps.all (fun op => op.inSelectWithDone) = false := by
  decide

/-- C4 (amended): after the driver closes `done`, every stage terminates and
every opened stream reaches closed exactly once, but not by the mechanism the
claim states: only every blocking *send* of a stage is paired in a single
atomic select with a wait on `done`; the blocking receives (the `range`
loops and the consumer's inner receive, evaluated outside its select) are
unblocked instead by the cascade of upstream closes that cancellation
triggers.  Formally: (1) every send operation in the stage table is inside a
select with `<-done`; (2) once the merged stream is closed the consumer's
run is total — its receives return immediately, so it cannot stay blocked;
(3) from every reachable state of the merger protocol, the merged stream has
been closed at most once and the run extends to one where it is closed
exactly once with all forwarders finished. -/
theorem c4_cancellation_termination :
    (∀ op ∈ pipelineChanOps, op.kind = OpKind.send →
      op.inSelectWithDone = true) ∧
    (∀ (l : List GoValue) (K : Nat),
      (createResultStream l true K).isSome = true) ∧
    (∀ (n : Nat) (s : RWState), RWReach n s →
      s.closes ≤ 1 ∧
      ∃ t, RWSteps s t ∧ t.closed = true ∧ t.closes = 1 ∧ t.running = 0) := by
  refine ⟨by decide, fun l K => createResultStream_closed_isSome K l, ?_⟩
  intro n s h
  obtain ⟨_, _, i3, i4⟩ := rwReach_invariant h
  refine ⟨?_, rw_closes_eventually h⟩
  cases hcd : s.closerDone with
  | false =>
    have := (i3 hcd).1
    omega
  | true =>
    have := (i4 hcd).1
    omega

/-- Witness for C4 (amended) at concrete inputs: the generator's send at
line 131 is paired with `<-done`; the consumer on a closed, empty merged
stream with `K = 3` does not block; the initial merger state with one
forwarder has closed the stream at most once. -/
theorem c4_cancellation_termination_witness :
    (⟨PipeStage.generator, OpKind.send, 131, true⟩ : ChanOp).inSelectWithDone
      = true ∧
    (createResultStream [] true 3).isSome = true ∧
    (RWState.init 1).closes ≤ 1 := by
  refine ⟨?_, ?_, ?_⟩
  · exact c4_cancellation_termination.1
      ⟨PipeStage.generator, OpKind.send, 131, true⟩ (by decide) rfl
  · exact c4_cancellation_termination.2.1 [] 3
  · exact (c4_cancellation_termination.2.2 1 (RWState.init 1) RWReach.init).1

/-- C5 counterexample: with zero workers the merged stream closes at once
with nothing on it, and then the consumer with `K = 1` does receive: its
receive on the closed merged stream completes immediately with the nil
interface, which it forwards — its output is the non-empty stream [nil]
after one completed receive, not an empty output after zero receives. -/
theorem c5_zero_workers_counterexample :
    createResultStream [] true 1 = some ([GoValue.nil], 1) ∧
    ([GoValue.nil] : List GoValue) ≠ [] ∧ (1 : Nat) ≠ 0 := by
  refine ⟨?_, by decide, by decide⟩
  simpa using createResultStream_closed_nil 1

/-- C5 (amended): with `N = 0` worker channels the completion counter starts
satisfied, so the close of the merged stream is enabled in the initial state
and no send is ever performed on it; the pipeline does not deadlock and the
consumer never receives a worker-produced item — but it does not receive
nothing: each of its `K` receives on the closed merged stream yields the nil
interface immediately (Go's zero value for a closed channel), and it forwards
those `K` nil values before closing its output. -/
theorem c5_zero_workers (K : Nat) :
    RWStep (RWState.init 0)
      ⟨0, true, true, 0, 1⟩ ∧
    (∀ s : RWState, RWReach 0 s → s.sends = 0 ∧ s.running = 0) ∧
    createResultStream [] true K = some (List.replicate K GoValue.nil, K) := by
  refine ⟨RWStep.close (RWState.init 0) rfl rfl, ?_, createResultStream_closed_nil K⟩
  intro s h
  exact rw_zero_no_sends h

/-- Witness for C5 (amended) at `K = 2` and the initial merger state. -/
theorem c5_zero_workers_witness :
    (RWState.init 0).sends = 0 ∧
    createResultStream [] true 2 = some ([GoValue.nil, GoValue.nil], 2) := by
  refine ⟨((c5_zero_workers 2).2.1 (RWState.init 0) RWReach.init).1, ?_⟩
  have h := (c5_zero_workers 2).2.2
  simpa using h

/-- C6 counterexample: the generator run in which `<-done` wins its first
select (the run the program realises when cancellation fires before the
projection stage takes a value) produces zero items but has already invoked
the injected value source once — `getValue()` is evaluated upon entry to the
select at line 131, before any downstream consumer is ready and before the
race with `<-done` is decided — so the source is not called exactly once per
produced item and not only when a consumer is ready to receive. -/
theorem c6_generator_calls_counterexample :
    (createValueStream (fun i => GoValue.int64 (Int.ofNat i)) 0 0).1.length = 0 ∧
    (createValueStream (fun i => GoValue.int64 (Int.ofNat i)) 0 0).2 = 1 ∧
    (1 : Nat) ≠ 0 := by
  decide

/-- C6 (amended): a generator run with `k` produced items performs exactly
`k + 1` calls of the injected source — one call per select entry, hence one
per produced item plus one final call whose value is discarded when `<-done`
wins the last select (and only then: no generated value is discarded while
the cancellation signal is open, because the select blocks until the send is
taken).  The produced items are the first `k` source values in call order,
so the source never runs more than one step ahead of demand. -/
theorem c6_generator_calls (source : Nat → GoValue) (k : Nat) :
    (createValueStream source 0 k).1 = (List.range k).map source ∧
    (createValueStream source 0 k).1.length = k ∧
    (createValueStream source 0 k).2 = k + 1 ∧
    (createValueStream source 0 k).2 = (createValueStream source 0 k).1.length + 1 := by
  obtain ⟨h1, h2⟩ := createValueStream_spec source 0 k
  have hmap : (List.range k).map (fun j => source (0 + j)) = (List.range k).map source := by
    refine List.map_congr_left ?_
    intro j _
    simp
  refine ⟨by rw [h1, hmap], ?_, h2, ?_⟩
  · rw [h1, hmap]
    simp
  · rw [h2, h1, hmap]
    simp

/-- C7: `main` triggers the cancellation signal through the single statement
`defer close(done)` (line 32), executed exactly once when `main` returns:
the run performs exactly one close, which succeeds without panicking and
leaves the signal closed.  Repeated triggering is disallowed by
construction — there is no other close site — and indeed must be, since two
or more closes of the one-shot channel would panic. -/
theorem c7_idempotent_cancellation :
    runCloses mainDoneCloses ChanState.opened =
      Except.ok (ChanState.closed, 1) ∧
    ∀ k : Nat, 2 ≤ k →
      runCloses k ChanState.opened =
        Except.error GoPanic.closeOfClosedChannel := by
  refine ⟨rfl, ?_⟩
  intro k hk
  obtain ⟨m, rfl⟩ : ∃ m, k = m + 2 := ⟨k - 2, by omega⟩
  rfl

/-- Witness for C7: a hypothetical second trigger (two closes) panics,
confirming that the exactly-once construction is what the safety rests on. -/
theorem c7_idempotent_cancellation_witness :
    runCloses 2 ChanState.opened =
      Except.error GoPanic.closeOfClosedChannel := by
  exact c7_idempotent_cancellation.2 2 (by decide)

/-- C8: the Projection stage (`valuesToIntStream`, lines 139-152).  When its
run completes without panic, every raw item had dynamic type `int64` and the
typed stream carries exactly their payloads, unchanged and in order
(forwarding, never transformation, never a skip); when any raw item is not
an `int64`, the run signals the fatal type-assertion panic — which in Go
kills the whole program, terminating the pipeline — instead of skipping the
item and continuing. -/
theorem c8_projection_type_mismatch (vals : List GoValue) :
    (∀ out : List Int, valuesToIntStream vals = Except.ok out →
      vals = out.map GoValue.int64 ∧ ∀ v ∈ vals, isInt64 v = true) ∧
    ((∃ v ∈ vals, isInt64 v = false) →
      valuesToIntStream vals = Except.error GoPanic.typeAssertionFailed) := by
  refine ⟨?_, valuesToIntStream_error vals⟩
  intro out h
  have hm := valuesToIntStream_ok vals out h
  refine ⟨hm, ?_⟩
  intro v hv
  rw [hm] at hv
  obtain ⟨n, _, rfl⟩ := List.mem_map.mp hv
  rfl

/-- Witness for C8: the raw stream [int64 3, other] makes the projection
panic with the type-assertion failure. -/
theorem c8_projection_type_mismatch_witness :
    valuesToIntStream [GoValue.int64 3, GoValue.other] =
      Except.error GoPanic.typeAssertionFailed := by
  exact (c8_projection_type_mismatch [GoValue.int64 3, GoValue.other]).2
    ⟨GoValue.other, by decide, rfl⟩

/-- C10: if the range flag `r` is zero or negative, the value source built
by `randVal` panics on its very first invocation (`rand.Int63n` panics on a
non-positive bound), and since the generator evaluates `getValue()` upon
entry to its first select (line 131), every generator run aborts with that
panic before producing any item: the pipeline terminates abnormally on the
first generation attempt. -/
theorem c10_randval_nonpositive (r : Int) (rng : Nat → Int) (k : Nat)
    (h : r ≤ 0) :
    randVal r rng 0 = Except.error GoPanic.int63nNonPositive ∧
    createValueStreamE (randVal r rng) 0 k =
      Except.error GoPanic.int63nNonPositive := by
  have hsrc : ∀ i, randVal r rng i = Except.error GoPanic.int63nNonPositive := by
    intro i
    simp [randVal, randInt63n, if_pos h]
  refine ⟨hsrc 0, ?_⟩
  cases k with
  | zero => simp [createValueStreamE, hsrc 0]
  | succ k => simp [createValueStreamE, hsrc 0]

/-- Witness for C10 at `r = 0`: the generator run panics with the Int63n
panic and yields no items. -/
theorem c10_randval_nonpositive_witness :
    createValueStreamE (randVal 0 (fun _ => 5)) 0 4 =
      Except.error GoPanic.int63nNonPositive := by
  exact (c10_randval_nonpositive 0 (fun _ => 5) 4 (by decide)).2

/-- C9 counterexample: duplicates refute the claimed distinctness.  Under
the entropy oracle `rngDup` — a legal behaviour of `rand.Int63n(100)`, which
samples with replacement (`randInt63n 100 2 = ok 2` shows the repeated value
is realised by the source) — the Scenario A pipeline (`K = 5`, `range = 100`,
`N = 1`) delivers to the consumer 2, 2, 3, 5, 7: five primes in `[0, 100)`,
in worker order, but not five distinct integers. -/
theorem c9_scenario_a_counterexample :
    scenarioA rngDup 5 =
      some ([GoValue.int64 2, GoValue.int64 2, GoValue.int64 3,
        GoValue.int64 5, GoValue.int64 7], 5) ∧
    ¬ ([GoValue.int64 2, GoValue.int64 2, GoValue.int64 3,
        GoValue.int64 5, GoValue.int64 7] : List GoValue).Nodup ∧
    randInt63n 100 2 = Except.ok 2 := by
  decide

/-- C9 (amended): the flag defaults are `p = 10`, `r = 100000`, `n = 8`;
every value the injected source returns for a positive range parameter lies
in `[0, r)`; and every completed Scenario A run (`K = 5`, `range = 100`,
`N = 1`) delivers to the consumer exactly 5 integers — not necessarily
distinct, since the source samples with replacement — each in `[0, 100)`
and each prime by Mathlib's independent primality predicate, in the order
the single worker emitted them: the consumer's output is the initial 5-item
segment of the worker's output stream. -/
theorem c9_scenario_a :
    (DEFAULT_NUM_PRIMES = 10 ∧ DEFAULT_NUM_RANGE = 100000 ∧
      DEFAULT_NUM_WORKERS = 8) ∧
    (∀ r x v : Int, 0 < r → randInt63n r x = Except.ok v → 0 ≤ v ∧ v < r) ∧
    (∀ (rng : Nat → Int) (g : Nat) (out : List GoValue) (rcv : Nat),
      scenarioA rng g = some (out, rcv) →
      out.length = 5 ∧ rcv = 5 ∧
      (∀ v ∈ out, ∃ n : Int, v = GoValue.int64 n ∧
        Nat.Prime n.toNat ∧ 0 ≤ n ∧ n < 100) ∧
      ∃ ints : List Int,
        out = (((primeNumberWorker ints none).2).map GoValue.int64).take 5) := by
  refine ⟨⟨rfl, rfl, rfl⟩, ?_, ?_⟩
  · intro r x v hr hok
    rw [randInt63n, if_neg (not_le.mpr hr)] at hok
    obtain rfl : x % r = v := by injection hok
    exact ⟨Int.emod_nonneg _ (ne_of_gt hr), Int.emod_lt_of_pos _ hr⟩
  · intro rng g out rcv h
    obtain ⟨raw, hgen, hb⟩ := createValueStreamE_randVal 100 (by norm_num) rng 0 g
    cases hv : valuesToIntStream raw with
    | error e =>
      simp only [scenarioA, hgen, hv] at h
      exact Option.noConfusion h
    | ok ints =>
      simp only [scenarioA, hgen, hv, reduceChan_none] at h
      obtain ⟨hlen, hp⟩ := createResultStream_false_some _ 5 (out, rcv) h
      have hout : out = (((primeNumberWorker ints none).2).map GoValue.int64).take 5 :=
        congrArg Prod.fst hp
      have hrcv : rcv = 5 := congrArg Prod.snd hp
      refine ⟨?_, hrcv, ?_, ints, hout⟩
      · rw [hout, List.length_take]
        omega
      · intro v hv2
        rw [hout] at hv2
        have hv3 : v ∈ ((primeNumberWorker ints none).2).map GoValue.int64 :=
          List.take_subset _ _ hv2
        obtain ⟨n, hn, rfl⟩ := List.mem_map.mp hv3
        have hn2 : n ∈ ints.filter probablyPrime := by
          rwa [congrArg Prod.snd (primeNumberWorker_none ints)] at hn
        have hmem := List.mem_filter.mp hn2
        have hpp := (probablyPrime_iff n).mp hmem.2
        have hraw : GoValue.int64 n ∈ raw := by
          rw [valuesToIntStream_ok raw ints hv]
          exact List.mem_map_of_mem _ hmem.1
        obtain ⟨m, hm, hm0, hm1⟩ := hb _ hraw
        obtain rfl : n = m := by injection hm
        exact ⟨n, rfl, hpp.2, hm0, hm1⟩

/-- Witness for C9 at the oracle `rngW`: the run completes, delivering 5
items, and the source value 7 lies in `[0, 100)`. -/
theorem c9_scenario_a_witness :
    ([GoValue.int64 2, GoValue.int64 3, GoValue.int64 5, GoValue.int64 7,
      GoValue.int64 11] : List GoValue).length = 5 ∧
    (0 : Int) ≤ 7 ∧ (7 : Int) < 100 := by
  have h1 := (c9_scenario_a.2.2 rngW 5
    [GoValue.int64 2, GoValue.int64 3, GoValue.int64 5, GoValue.int64 7,
      GoValue.int64 11] 5 (by decide)).1
  have h2 := c9_scenario_a.2.1 100 7 7 (by norm_num) (by decide)
  exact ⟨h1, h2.1, h2.2⟩
